import Mathlib

/-!
Shallow embedding of `src/connect/tunnel/getsess.rs` (geph4-client session
bootstrap and pipe maintenance).

Conventions of the embedding:
- Rust strings are `List Char`; bytes are `Nat` (values < 256 where relevant).
- External library calls are modelled by concrete functions faithful to their
  documented behaviour: `hex::decode` (pairs of hex digits, either case, odd
  length or a non-hex digit is an error), `SocketAddr::from_str` (restricted to
  IPv4 `a.b.c.d:port` — four decimal octets without leading zeros, each at most
  255, and a decimal port at most 65535, leading zeros allowed), and
  `bincode::deserialize::<(ObfsUdpPublic, MuxPublic)>` (two 32-byte keys laid
  out back to back, so exactly 64 bytes).
- Network and discovery effects are explicit inputs (oracles) and explicit
  event traces, so each function returns the list of effects it performs in
  order, together with its result.
-/

/-- Rust `str::split(sep).collect::<Vec<_>>()` on a character list: the result
is always non-empty, and an empty input yields one empty segment. -/
def splitChar (sep : Char) : List Char → List (List Char)
  | [] => [[]]
  | c :: rest =>
    if c = sep then [] :: splitChar sep rest
    else
      match splitChar sep rest with
      | [] => [[c]]
      | g :: gs => (c :: g) :: gs

/-- Value of one hex digit, accepting both cases, as `hex::decode` does. -/
def hexDigitVal (c : Char) : Option Nat :=
  if 48 ≤ c.toNat ∧ c.toNat ≤ 57 then some (c.toNat - 48)
  else if 97 ≤ c.toNat ∧ c.toNat ≤ 102 then some (c.toNat - 87)
  else if 65 ≤ c.toNat ∧ c.toNat ≤ 70 then some (c.toNat - 55)
  else none

/-- Model of `hex::decode`: consumes pairs of hex digits; odd length or any
non-hex character is an error. -/
def hexDecode : List Char → Option (List Nat)
  | [] => some []
  | [_] => none
  | hi :: lo :: rest =>
    match hexDigitVal hi, hexDigitVal lo, hexDecode rest with
    | some h, some l, some bs => some ((16 * h + l) :: bs)
    | _, _, _ => none

/-- Lower-case hex digit for a value below 16, as `hex::encode` emits. -/
def hexDigitChar (d : Nat) : Char :=
  if d < 10 then Char.ofNat (48 + d) else Char.ofNat (87 + d)

/-- Model of `hex::encode`: two lower-case hex digits per byte. -/
def hexEncode : List Nat → List Char
  | [] => []
  | b :: bs => hexDigitChar (b / 16) :: hexDigitChar (b % 16) :: hexEncode bs

/-- Decimal digit character. -/
def digitChar (d : Nat) : Char := Char.ofNat (48 + d)

/-- Whether a character is a decimal digit. -/
def isDigitChar (c : Char) : Bool := decide (48 ≤ c.toNat) && decide (c.toNat ≤ 57)

/-- Numeric value of a decimal digit character. -/
def digitVal (c : Char) : Nat := c.toNat - 48

/-- Value of a most-significant-first decimal digit string. -/
def parseNatVal (cs : List Char) : Nat := cs.foldl (fun a c => 10 * a + digitVal c) 0

/-- Decimal rendering of a positive number, most significant digit first.
The first argument is fuel bounding the recursion depth; it is always called
with at least the number itself. -/
def natToCharsAux : Nat → Nat → List Char
  | 0, _ => []
  | _ + 1, 0 => []
  | fuel + 1, n + 1 => natToCharsAux fuel ((n + 1) / 10) ++ [digitChar ((n + 1) % 10)]

/-- Decimal rendering of a number, as Rust `Display` for integers. -/
def natToChars (n : Nat) : List Char :=
  if n = 0 then [digitChar 0] else natToCharsAux n n

/-- An IPv4 socket address: four octets and a port. -/
structure SockAddrV4 where
  a : Nat
  b : Nat
  c : Nat
  d : Nat
  port : Nat
deriving DecidableEq

/-- Leading-zero discipline of the std IPv4 octet parser: a multi-digit octet
must not start with a zero; the empty string is rejected. -/
def noLeadZero : List Char → Bool
  | [] => false
  | [_] => true
  | c :: _ :: _ => c != '0'

/-- Model of one octet of `Ipv4Addr::from_str`: at most three decimal digits,
no leading zero, value at most 255. -/
def parseOctet (cs : List Char) : Option Nat :=
  if cs.all isDigitChar && noLeadZero cs && decide (cs.length ≤ 3)
      && decide (parseNatVal cs ≤ 255)
  then some (parseNatVal cs) else none

/-- Model of the port part of `SocketAddr::from_str`: non-empty decimal
digits, value fitting in 16 bits (leading zeros are accepted). -/
def parsePort (cs : List Char) : Option Nat :=
  if !cs.isEmpty && cs.all isDigitChar && decide (parseNatVal cs ≤ 65535)
  then some (parseNatVal cs) else none

/-- Model of `Ipv4Addr::from_str`: four octets separated by dots. -/
def parseIpv4 (cs : List Char) : Option (Nat × Nat × Nat × Nat) :=
  match splitChar '.' cs with
  | [s1, s2, s3, s4] =>
    match parseOctet s1, parseOctet s2, parseOctet s3, parseOctet s4 with
    | some x1, some x2, some x3, some x4 => some (x1, x2, x3, x4)
    | _, _, _, _ => none
  | _ => none

/-- Model of `SocketAddr::from_str` restricted to IPv4: host, one colon,
port. -/
def parseSockAddr (cs : List Char) : Option SockAddrV4 :=
  match splitChar ':' cs with
  | [host, portStr] =>
    match parseIpv4 host, parsePort portStr with
    | some (x1, x2, x3, x4), some p => some ⟨x1, x2, x3, x4, p⟩
    | _, _ => none
  | _ => none

/-- Model of `SocketAddr::to_string` for IPv4 addresses. -/
def renderSockAddr (sa : SockAddrV4) : List Char :=
  natToChars sa.a ++ '.' :: natToChars sa.b ++ '.' :: natToChars sa.c
    ++ '.' :: natToChars sa.d ++ ':' :: natToChars sa.port

/-- The four `anyhow` contexts `parse_independent_endpoint` can fail with,
all of them format errors. -/
inductive EndpointParseError
  | urlNotPkHost
  | pkNotHex
  | badPkLength
  | badHostPort
deriving DecidableEq

/-- Embedding of `parse_independent_endpoint` (getsess.rs lines 18-33): split
on every `@`, hex-decode segment 0 into exactly 32 bytes, parse segment 1 as a
socket address; all further segments are never inspected. -/
def parse_independent_endpoint (endpoint : List Char) :
    Except EndpointParseError (SockAddrV4 × List Nat) :=
  match (splitChar '@' endpoint).head? with
  | none => .error .urlNotPkHost
  | some pkChars =>
    match hexDecode pkChars with
    | none => .error .pkNotHex
    | some decoded =>
      if decoded.length = 32 then
        match (splitChar '@' endpoint)[1]? with
        | none => .error .urlNotPkHost
        | some addrChars =>
          match parseSockAddr addrChars with
          | none => .error .badHostPort
          | some server_addr => .ok (server_addr, decoded)
      else .error .badPkLength

/-- Protocol identifier of the UDP-obfuscation transport. -/
def obfsudp : String := "sosistab2-obfsudp"

/-- Protocol identifier of the TLS-mimicry transport. -/
def obfstls : String := "sosistab2-obfstls"

/-- Embedding of `geph4_protocol::...::BridgeDescriptor`, with only the fields
getsess.rs reads. -/
structure BridgeDescriptor where
  endpoint : SockAddrV4
  protocol : String
  sosistab_key : List Nat
  is_direct : Bool
deriving DecidableEq

/-- An established pipe, exposing `protocol()` and `peer_addr()`. -/
structure Pipe where
  protocolName : String
  peerAddr : List Char
deriving DecidableEq

/-- Embedding of `ExitDescriptor`, with only the hostname field used here. -/
structure ExitDescriptor where
  hostname : List Char
deriving DecidableEq

/-- Model of `bincode::deserialize::<(ObfsUdpPublic, MuxPublic)>`: the blob is
the two 32-byte keys laid out back to back, so it decodes exactly when it is
64 bytes long. -/
def decodeKeys (blob : List Nat) : Option (List Nat × List Nat) :=
  if blob.length = 64 then some (blob.take 32, blob.drop 32) else none

/-- The `force_protocol` regex of `BinderTunnelParams`, modelled as either an
uncompilable pattern or a compiled matcher function. -/
inductive ProtocolFilter
  | invalid
  | matcher (matchFn : String → Bool)

/-- The fields of `BinderTunnelParams` that `connect_once` reads. -/
structure BinderParams where
  use_bridges : Bool
  force_protocol : Option ProtocolFilter

/-- The typed failures of `connect_once` (each an `anyhow` bail or context in
the source). -/
inductive ConnectError
  | skippedDirect
  | invalidProtocolForce
  | skippedProtocol
  | cannotDecodeKeys
  | pipeTimeout
  | pipeFailed
  | unknownProtocol (p : String)
deriving DecidableEq

/-- Observable effects of one `connect_once` call, in program order: the
status callback and the network connect (with its deadline in seconds, if
any). -/
inductive CEvent
  | statusPreConnect (addr : SockAddrV4) (protocol : String)
  | ioConnectUdp (addr : SockAddrV4) (udpKey : List Nat) (meta : List Char)
      (deadlineSecs : Option Nat)
  | ioConnectTls (addr : SockAddrV4) (keyBlob : List Nat) (meta : List Char)
      (deadlineSecs : Option Nat)
deriving DecidableEq

/-- Embedding of the protocol-dispatch half of `connect_once` (getsess.rs
lines 143-183). `netOutcome` is what awaiting the wrapped connect future
yields: `none` when the 10-second `smol_timeout` deadline expires, otherwise
the transport's own result. In the UDP arm the status callback fires before
key decoding, as in the source; the TLS arm has no status callback. -/
def connectDispatch (desc : BridgeDescriptor) (meta : List Char)
    (netOutcome : Option (Except Unit Pipe)) : List CEvent × Except ConnectError Pipe :=
  if desc.protocol = obfsudp then
    match decodeKeys desc.sosistab_key with
    | none => ([.statusPreConnect desc.endpoint obfsudp], .error .cannotDecodeKeys)
    | some keys =>
      match netOutcome with
      | none =>
        ([.statusPreConnect desc.endpoint obfsudp,
          .ioConnectUdp desc.endpoint keys.1 meta (some 10)], .error .pipeTimeout)
      | some (.error _) =>
        ([.statusPreConnect desc.endpoint obfsudp,
          .ioConnectUdp desc.endpoint keys.1 meta (some 10)], .error .pipeFailed)
      | some (.ok p) =>
        ([.statusPreConnect desc.endpoint obfsudp,
          .ioConnectUdp desc.endpoint keys.1 meta (some 10)], .ok p)
  else if desc.protocol = obfstls then
    match netOutcome with
    | none =>
      ([.ioConnectTls desc.endpoint desc.sosistab_key meta (some 10)], .error .pipeTimeout)
    | some (.error _) =>
      ([.ioConnectTls desc.endpoint desc.sosistab_key meta (some 10)], .error .pipeFailed)
    | some (.ok p) =>
      ([.ioConnectTls desc.endpoint desc.sosistab_key meta (some 10)], .ok p)
  else ([], .error (.unknownProtocol desc.protocol))

/-- Embedding of `connect_once` (getsess.rs lines 127-184). The filter block
runs only when the endpoint source is Binder (discovered mode), and strictly
before the dispatch that performs any status callback or I/O. -/
def connect_once (endpointParams : Option BinderParams) (desc : BridgeDescriptor)
    (meta : List Char) (netOutcome : Option (Except Unit Pipe)) :
    List CEvent × Except ConnectError Pipe :=
  match endpointParams with
  | some params =>
    if params.use_bridges && desc.is_direct then ([], .error .skippedDirect)
    else
      match params.force_protocol with
      | some .invalid => ([], .error .invalidProtocolForce)
      | some (.matcher f) =>
        if f desc.protocol then connectDispatch desc meta netOutcome
        else ([], .error .skippedProtocol)
      | none => connectDispatch desc meta netOutcome
  | none => connectDispatch desc meta netOutcome

/-- How an attempt is scheduled: awaited in place (the caller blocks on it) or
spawned as a detached task (fire and forget). -/
inductive Scheduling
  | awaitedInline
  | spawnedDetached
deriving DecidableEq

/-- Observable effects of independent-mode session construction: each
`ObfsUdpPipe::connect` call (with its deadline, if any, and how it is
scheduled) and each `add_pipe`. -/
inductive IEvent
  | connectAttempt (addr : SockAddrV4) (udpKey : List Nat) (sessid : List Char)
      (deadlineSecs : Option Nat) (sched : Scheduling)
  | addPipe (p : Pipe)
deriving DecidableEq

/-- Failures of `get_session`'s independent arm. -/
inductive BuildError
  | formatError (e : EndpointParseError)
  | connectFailed
deriving DecidableEq

/-- The state `get_session` returns: the multiplex, with its optional expected
peer key, attached pipes, and the session identifier its pipes were opened
with. -/
structure SessionModel where
  expectedPeerKey : Option (List Nat)
  pipes : List Pipe
  sessid : List Char
deriving DecidableEq

/-- Embedding of the `for _ in 0..4` loop of `get_session`'s independent arm
(getsess.rs lines 42-45): each iteration awaits one connect (no deadline
wrapper in the source) and, on success, adds the pipe before the next connect
starts; the first error aborts the loop. `outcomes i` is what awaiting the
i-th connect yields. -/
def independentLoop (addr : SockAddrV4) (udpKey : List Nat) (sessid : List Char)
    (outcomes : Nat → Except Unit Pipe) : Nat → Nat → List IEvent × Except Unit (List Pipe)
  | _, 0 => ([], .ok [])
  | i, k + 1 =>
    match outcomes i with
    | .error e => ([.connectAttempt addr udpKey sessid none .awaitedInline], .error e)
    | .ok p =>
      match independentLoop addr udpKey sessid outcomes (i + 1) k with
      | (evs, .error e) =>
        (.connectAttempt addr udpKey sessid none .awaitedInline :: .addPipe p :: evs,
         .error e)
      | (evs, .ok ps) =>
        (.connectAttempt addr udpKey sessid none .awaitedInline :: .addPipe p :: evs,
         .ok (p :: ps))

/-- Embedding of `get_session`'s independent arm (getsess.rs lines 37-47):
parse the endpoint, create a multiplex with no expected peer key, then open
four pipes with `independentLoop`. -/
def getSessionIndependent (endpoint : List Char) (sessid : List Char)
    (outcomes : Nat → Except Unit Pipe) : List IEvent × Except BuildError SessionModel :=
  match parse_independent_endpoint endpoint with
  | .error e => ([], .error (.formatError e))
  | .ok (addr, raw_key) =>
    match independentLoop addr raw_key sessid outcomes 0 4 with
    | (evs, .error _) => (evs, .error .connectFailed)
    | (evs, .ok ps) => (evs, .ok { expectedPeerKey := none, pipes := ps, sessid := sessid })

/-- Observable effects of `get_session`'s Binder (discovered) arm, in program
order. -/
inductive DEvent
  | discoveryClosestExit
  | discoveryBridgeList
  | keyGenerated
  | sessionCreated
  | spawnAttempt (b : BridgeDescriptor)
  | refresherStarted
deriving DecidableEq

/-- Failures of `get_session`'s Binder arm (each an `anyhow` context or bail
in the source). -/
inductive DiscoveredError
  | cannotGetClosestExit
  | cannotGetBridges
  | noRoutes
  | cannotDeduceMuxPublic
deriving DecidableEq

/-- One iteration of the `seen` accumulation in `get_session`'s e2e-key scan
(getsess.rs lines 66-78): an obfsudp bridge whose blob decodes overwrites
`seen` with the MuxPublic half; everything else leaves it unchanged. -/
def e2eStep (seen : Option (List Nat)) (bridge : BridgeDescriptor) : Option (List Nat) :=
  if bridge.protocol = obfsudp then
    match decodeKeys bridge.sosistab_key with
    | some val => some val.2
    | none => seen
  else seen

/-- The e2e-key scan over the whole bridge list. -/
def deriveE2e (bridges : List BridgeDescriptor) : Option (List Nat) :=
  bridges.foldl e2eStep none

/-- Embedding of `get_session`'s Binder arm (getsess.rs lines 48-123):
closest-exit lookup, bridge-list fetch, empty check, e2e-key derivation, and
only then key generation and multiplex creation, one detached attempt spawned
per bridge, and the refresher task registered. The session is returned without
waiting for any attempt, so its pipe set starts empty. -/
def getSessionDiscovered (exitRes : Except Unit ExitDescriptor)
    (bridgesRes : Except Unit (List BridgeDescriptor)) (sessid : List Char) :
    List DEvent × Except DiscoveredError SessionModel :=
  match exitRes with
  | .error _ => ([.discoveryClosestExit], .error .cannotGetClosestExit)
  | .ok _ =>
    match bridgesRes with
    | .error _ => ([.discoveryClosestExit, .discoveryBridgeList], .error .cannotGetBridges)
    | .ok bridges =>
      if bridges.isEmpty then
        ([.discoveryClosestExit, .discoveryBridgeList], .error .noRoutes)
      else
        match deriveE2e bridges with
        | none =>
          ([.discoveryClosestExit, .discoveryBridgeList], .error .cannotDeduceMuxPublic)
        | some e2e =>
          ([.discoveryClosestExit, .discoveryBridgeList, .keyGenerated, .sessionCreated]
             ++ bridges.map DEvent.spawnAttempt ++ [.refresherStarted],
           .ok { expectedPeerKey := some e2e, pipes := [], sessid := sessid })

/-- What one iteration of `replace_dead`'s inner `fallible_part` sees: the
force-fresh bridge-list result, and the result of upgrading the weak multiplex
reference (`some` carries the `iter_pipes` snapshot). -/
structure CycleInput where
  bridgesRes : Except Unit (List BridgeDescriptor)
  upgraded : Option (List Pipe)

/-- Observable effects of the `replace_dead` loop, in program order. -/
inductive REvent
  | awaitTimer
  | discoveryCall
  | scheduleAttempt (b : BridgeDescriptor)
  | logRefreshError
deriving DecidableEq

/-- Embedding of the `new_bridges` filter (getsess.rs lines 201-208): keep the
fetched bridges whose endpoint string equals no attached pipe's peer
address. -/
def newBridges (bridges : List BridgeDescriptor) (current_pipes : List Pipe) :
    List BridgeDescriptor :=
  bridges.filter fun br =>
    !(current_pipes.any fun pipe => pipe.peerAddr == renderSockAddr br.endpoint)

/-- Effects of one iteration of `replace_dead`'s inner loop (getsess.rs lines
196-239): the bridge fetch always runs first; a fetch or upgrade failure is
logged; otherwise one detached attempt is spawned per new bridge. -/
def cycleEvents (inp : CycleInput) : List REvent :=
  match inp.bridgesRes with
  | .error _ => [.discoveryCall, .logRefreshError]
  | .ok bridges =>
    match inp.upgraded with
    | none => [.discoveryCall, .logRefreshError]
    | some pipes => .discoveryCall :: (newBridges bridges pipes).map REvent.scheduleAttempt

/-- Control points of `replace_dead` (getsess.rs lines 186-242): the top of
the outer loop (about to await the 5-minute timer) and the top of the inner
loop (about to run `fallible_part`). The inner loop has no break, so no
transition ever leaves `innerTop`. -/
inductive RState
  | outerTop
  | innerTop
deriving DecidableEq

/-- Trace of `replace_dead` across a finite window of inner-loop iterations:
`env` supplies what each successive `fallible_part` iteration observes, and
the run stops when the window is exhausted. From `outerTop` the 5-minute timer
is awaited and control enters the inner loop; each inner iteration emits its
cycle's events and loops back to `innerTop`. -/
def replace_dead_run : RState → List CycleInput → List REvent
  | _, [] => []
  | .outerTop, env => .awaitTimer :: replace_dead_run .innerTop env
  | .innerTop, inp :: env => cycleEvents inp ++ replace_dead_run .innerTop env
termination_by s env => (env.length, match s with | .outerTop => 1 | .innerTop => 0)

deriving instance DecidableEq for Except

/-- Whether an independent-mode event is a connect attempt. -/
def isAttemptEvent : IEvent → Bool
  | .connectAttempt _ _ _ _ _ => true
  | _ => false

/-- A concrete 32-byte key used by concrete instances below. -/
def sampleKey : List Nat := List.replicate 32 0

/-- A concrete socket address. -/
def sampleAddr : SockAddrV4 := ⟨1, 2, 3, 4, 5⟩

/-- A concrete well-formed independent endpoint string. -/
def sampleEndpoint : List Char := hexEncode sampleKey ++ '@' :: renderSockAddr sampleAddr

/-- A concrete session identifier. -/
def sampleSessid : List Char := ['s']

/-- A concrete established pipe. -/
def samplePipe : Pipe := ⟨obfsudp, ['a']⟩

/-- A refresher cycle whose weak-reference upgrade fails (the session's last
strong owner is gone) while discovery succeeds. -/
def orphanCycle : CycleInput := { bridgesRes := .ok [], upgraded := none }

/-- A refresher cycle whose bridge fetch fails. -/
def failedFetchCycle : CycleInput := { bridgesRes := .error (), upgraded := none }

/-- A concrete UDP bridge whose key blob is empty, hence undecodable. -/
def keylessBridge : BridgeDescriptor := ⟨⟨1, 1, 1, 1, 1⟩, obfsudp, [], false⟩

/-- A concrete UDP bridge carrying a decodable 64-byte blob. -/
def keyedBridge : BridgeDescriptor := ⟨⟨2, 2, 2, 2, 2⟩, obfsudp, List.replicate 64 7, false⟩

/-- A concrete bridge at `sampleAddr`. -/
def sampleBridge : BridgeDescriptor := ⟨sampleAddr, obfsudp, List.replicate 64 7, false⟩

/-- A pipe already attached to `sampleAddr`. -/
def attachedPipe : Pipe := ⟨obfsudp, renderSockAddr sampleAddr⟩

theorem splitChar_not_mem {sep : Char} {xs : List Char} (h : sep ∉ xs) :
    splitChar sep xs = [xs] := by
  induction xs with
  | nil => rfl
  | cons c rest ih =>
    simp only [List.mem_cons, not_or] at h
    have hcs : c ≠ sep := Ne.symm h.1
    simp [splitChar, hcs, ih h.2]

theorem splitChar_append {sep : Char} {xs ys : List Char} (h : sep ∉ xs) :
    splitChar sep (xs ++ sep :: ys) = xs :: splitChar sep ys := by
  induction xs with
  | nil => simp [splitChar]
  | cons c rest ih =>
    simp only [List.mem_cons, not_or] at h
    have hcs : c ≠ sep := Ne.symm h.1
    simp [splitChar, hcs, ih h.2]

theorem hexDigitVal_hexDigitChar {d : Nat} (h : d < 16) :
    hexDigitVal (hexDigitChar d) = some d := by
  interval_cases d <;> decide

theorem hexDigitChar_ne_at {d : Nat} (h : d < 16) : hexDigitChar d ≠ '@' := by
  interval_cases d <;> decide

theorem hexDecode_hexEncode : ∀ {bs : List Nat}, (∀ b ∈ bs, b < 256) →
    hexDecode (hexEncode bs) = some bs := by
  intro bs
  induction bs with
  | nil => intro _; rfl
  | cons b rest ih =>
    intro h
    have hb : b < 256 := h b (List.mem_cons_self b rest)
    have hdiv : b / 16 < 16 := by omega
    have hmod : b % 16 < 16 := by omega
    have hrest : hexDecode (hexEncode rest) = some rest :=
      ih fun x hx => h x (List.mem_cons_of_mem b hx)
    have hval : 16 * (b / 16) + b % 16 = b := by omega
    simp [hexEncode, hexDecode, hexDigitVal_hexDigitChar hdiv,
      hexDigitVal_hexDigitChar hmod, hrest, hval]

theorem mem_hexEncode : ∀ {c : Char} {bs : List Nat}, (∀ b ∈ bs, b < 256) →
    c ∈ hexEncode bs → ∃ d, d < 16 ∧ c = hexDigitChar d := by
  intro c bs
  induction bs with
  | nil => intro _ hc; simp [hexEncode] at hc
  | cons b rest ih =>
    intro h hc
    have hb : b < 256 := h b (List.mem_cons_self b rest)
    simp only [hexEncode, List.mem_cons] at hc
    rcases hc with hc | hc | hc
    · exact ⟨b / 16, by omega, hc⟩
    · exact ⟨b % 16, by omega, hc⟩
    · exact ih (fun x hx => h x (List.mem_cons_of_mem b hx)) hc

theorem at_not_mem_hexEncode {bs : List Nat} (h : ∀ b ∈ bs, b < 256) :
    '@' ∉ hexEncode bs := by
  intro hmem
  obtain ⟨d, hd, he⟩ := mem_hexEncode h hmem
  exact hexDigitChar_ne_at hd he.symm

theorem hexEncode_length (bs : List Nat) : (hexEncode bs).length = 2 * bs.length := by
  induction bs with
  | nil => rfl
  | cons b rest ih => simp [hexEncode, ih]; omega

theorem natToCharsAux_zero (fuel : Nat) : natToCharsAux fuel 0 = [] := by
  cases fuel <;> rfl

theorem digitVal_digitChar {d : Nat} (h : d < 10) : digitVal (digitChar d) = d := by
  interval_cases d <;> decide

theorem isDigitChar_digitChar {d : Nat} (h : d < 10) : isDigitChar (digitChar d) = true := by
  interval_cases d <;> decide

theorem digitChar_ne_dot {d : Nat} (h : d < 10) : digitChar d ≠ '.' := by
  interval_cases d <;> decide

theorem digitChar_ne_colon {d : Nat} (h : d < 10) : digitChar d ≠ ':' := by
  interval_cases d <;> decide

theorem digitChar_ne_at {d : Nat} (h : d < 10) : digitChar d ≠ '@' := by
  interval_cases d <;> decide

theorem digitChar_ne_zero_char {d : Nat} (h : d < 10) (hz : d ≠ 0) : digitChar d ≠ '0' := by
  interval_cases d
  · exact absurd rfl hz
  all_goals decide

theorem parseNatVal_append_digit (xs : List Char) (c : Char) :
    parseNatVal (xs ++ [c]) = 10 * parseNatVal xs + digitVal c := by
  simp [parseNatVal, List.foldl_append]

theorem natToCharsAux_spec :
    ∀ n, 1 ≤ n → ∀ fuel, n ≤ fuel →
      parseNatVal (natToCharsAux fuel n) = n
      ∧ (∀ c ∈ natToCharsAux fuel n, ∃ d, d < 10 ∧ c = digitChar d)
      ∧ (∃ c cs, natToCharsAux fuel n = c :: cs ∧ c ≠ '0') := by
  intro n
  induction n using Nat.strong_induction_on with
  | _ n ih =>
    intro h1 fuel h2
    match n, h1 with
    | m + 1, _ =>
      match fuel, h2 with
      | f + 1, _ =>
        have hunf : natToCharsAux (f + 1) (m + 1)
            = natToCharsAux f ((m + 1) / 10) ++ [digitChar ((m + 1) % 10)] := rfl
        have hmod : (m + 1) % 10 < 10 := Nat.mod_lt _ (by omega)
        by_cases hq : (m + 1) / 10 = 0
        · have hm9 : m + 1 < 10 := by omega
          have hmeq : (m + 1) % 10 = m + 1 := Nat.mod_eq_of_lt hm9
          rw [hunf, hq, natToCharsAux_zero]
          refine ⟨?_, ?_, ?_⟩
          · rw [List.nil_append, hmeq]
            simp [parseNatVal, digitVal_digitChar (show m + 1 < 10 by omega)]
          · intro c hc
            simp only [List.nil_append, List.mem_singleton] at hc
            exact ⟨(m + 1) % 10, hmod, hc⟩
          · exact ⟨digitChar ((m + 1) % 10), [], by simp,
              digitChar_ne_zero_char hmod (by omega)⟩
        · have hqlt : (m + 1) / 10 < m + 1 := Nat.div_lt_self (by omega) (by omega)
          have hqf : (m + 1) / 10 ≤ f := by omega
          obtain ⟨hval, hmem, c, cs, hcons, hc0⟩ :=
            ih ((m + 1) / 10) hqlt (by omega) f hqf
          rw [hunf]
          refine ⟨?_, ?_, ?_⟩
          · rw [parseNatVal_append_digit, hval, digitVal_digitChar hmod]
            omega
          · intro x hx
            rcases List.mem_append.mp hx with hx | hx
            · exact hmem x hx
            · simp only [List.mem_singleton] at hx
              exact ⟨(m + 1) % 10, hmod, hx⟩
          · exact ⟨c, cs ++ [digitChar ((m + 1) % 10)], by simp [hcons], hc0⟩

theorem natToCharsAux_length :
    ∀ n fuel k, n ≤ fuel → n < 10 ^ k → (natToCharsAux fuel n).length ≤ k := by
  intro n
  induction n using Nat.strong_induction_on with
  | _ n ih =>
    intro fuel k h1 h2
    match n with
    | 0 => simp [natToCharsAux_zero]
    | m + 1 =>
      match fuel with
      | f + 1 =>
        match k with
        | 0 => omega
        | j + 1 =>
          have hq : (m + 1) / 10 < 10 ^ j := by
            have := Nat.pow_succ 10 j
            rw [Nat.div_lt_iff_lt_mul (by omega)]
            omega
          have hqlt : (m + 1) / 10 < m + 1 := Nat.div_lt_self (by omega) (by omega)
          have hrec := ih ((m + 1) / 10) hqlt f j (by omega) hq
          have hunf : natToCharsAux (f + 1) (m + 1)
              = natToCharsAux f ((m + 1) / 10) ++ [digitChar ((m + 1) % 10)] := rfl
          rw [hunf]
          simp only [List.length_append, List.length_singleton]
          omega

theorem parseNatVal_natToChars (n : Nat) : parseNatVal (natToChars n) = n := by
  by_cases h : n = 0
  · subst h; decide
  · have := (natToCharsAux_spec n (by omega) n (le_refl n)).1
    simpa [natToChars, h] using this

theorem mem_natToChars {c : Char} {n : Nat} (h : c ∈ natToChars n) :
    ∃ d, d < 10 ∧ c = digitChar d := by
  by_cases hn : n = 0
  · subst hn
    have h0 : natToChars 0 = [digitChar 0] := rfl
    rw [h0, List.mem_singleton] at h
    exact ⟨0, by omega, h⟩
  · have := (natToCharsAux_spec n (by omega) n (le_refl n)).2.1
    exact this c (by simpa [natToChars, hn] using h)

theorem natToChars_ne_nil (n : Nat) : natToChars n ≠ [] := by
  by_cases hn : n = 0
  · subst hn; decide
  · obtain ⟨-, -, c, cs, hcons, -⟩ := natToCharsAux_spec n (by omega) n (le_refl n)
    simp [natToChars, hn, hcons]

theorem natToChars_all_digits (n : Nat) : (natToChars n).all isDigitChar = true := by
  rw [List.all_eq_true]
  intro c hc
  obtain ⟨d, hd, he⟩ := mem_natToChars hc
  rw [he]
  exact isDigitChar_digitChar hd

theorem noLeadZero_natToChars (n : Nat) : noLeadZero (natToChars n) = true := by
  by_cases hn : n = 0
  · subst hn; decide
  · obtain ⟨-, -, c, cs, hcons, hc0⟩ := natToCharsAux_spec n (by omega) n (le_refl n)
    have hcons2 : natToChars n = c :: cs := by simp [natToChars, hn, hcons]
    rw [hcons2]
    cases cs with
    | nil => rfl
    | cons x xs => simp [noLeadZero, hc0]

theorem natToChars_length_le {n k : Nat} (h1 : 1 ≤ k) (h2 : n < 10 ^ k) :
    (natToChars n).length ≤ k := by
  by_cases hn : n = 0
  · subst hn; simpa [natToChars] using h1
  · have := natToCharsAux_length n n k (le_refl n) h2
    simpa [natToChars, hn] using this

theorem colon_not_mem_natToChars (n : Nat) : ':' ∉ natToChars n := by
  intro h
  obtain ⟨d, hd, he⟩ := mem_natToChars h
  exact digitChar_ne_colon hd he.symm

theorem dot_not_mem_natToChars (n : Nat) : '.' ∉ natToChars n := by
  intro h
  obtain ⟨d, hd, he⟩ := mem_natToChars h
  exact digitChar_ne_dot hd he.symm

theorem at_not_mem_natToChars (n : Nat) : '@' ∉ natToChars n := by
  intro h
  obtain ⟨d, hd, he⟩ := mem_natToChars h
  exact digitChar_ne_at hd he.symm

theorem parseOctet_natToChars {n : Nat} (h : n ≤ 255) : parseOctet (natToChars n) = some n := by
  have hlen : (natToChars n).length ≤ 3 :=
    natToChars_length_le (by norm_num) (by norm_num; omega)
  have hval : parseNatVal (natToChars n) = n := parseNatVal_natToChars n
  simp [parseOctet, natToChars_all_digits, noLeadZero_natToChars, hlen, hval, h]

theorem parsePort_natToChars {n : Nat} (h : n ≤ 65535) : parsePort (natToChars n) = some n := by
  have hne : (natToChars n).isEmpty = false := by
    cases hcs : natToChars n with
    | nil => exact absurd hcs (natToChars_ne_nil n)
    | cons c cs => rfl
  have hval : parseNatVal (natToChars n) = n := parseNatVal_natToChars n
  simp [parsePort, hne, natToChars_all_digits, hval, h]

theorem mem_renderSockAddr {c : Char} {sa : SockAddrV4} (h : c ∈ renderSockAddr sa) :
    (∃ d, d < 10 ∧ c = digitChar d) ∨ c = '.' ∨ c = ':' := by
  simp only [renderSockAddr, List.mem_append, List.mem_cons] at h
  rcases h with (((h | h | h) | h | h) | h | h) | h | h
  · exact Or.inl (mem_natToChars h)
  · exact Or.inr (Or.inl h)
  · exact Or.inl (mem_natToChars h)
  · exact Or.inr (Or.inl h)
  · exact Or.inl (mem_natToChars h)
  · exact Or.inr (Or.inl h)
  · exact Or.inl (mem_natToChars h)
  · exact Or.inr (Or.inr h)
  · exact Or.inl (mem_natToChars h)

theorem at_not_mem_renderSockAddr (sa : SockAddrV4) : '@' ∉ renderSockAddr sa := by
  intro h
  rcases mem_renderSockAddr h with ⟨d, hd, he⟩ | h | h
  · exact digitChar_ne_at hd he.symm
  · exact absurd h (by decide)
  · exact absurd h (by decide)

theorem parseSockAddr_renderSockAddr {sa : SockAddrV4} (ha : sa.a ≤ 255) (hb : sa.b ≤ 255)
    (hc : sa.c ≤ 255) (hd : sa.d ≤ 255) (hp : sa.port ≤ 65535) :
    parseSockAddr (renderSockAddr sa) = some sa := by
  obtain ⟨a, b, c, d, p⟩ := sa
  have hkey : renderSockAddr ⟨a, b, c, d, p⟩
      = (natToChars a ++ '.' :: (natToChars b ++ '.' :: (natToChars c ++ '.' :: natToChars d)))
        ++ ':' :: natToChars p := by
    simp [renderSockAddr, List.append_assoc]
  have hcolon : ':' ∉ natToChars a
      ++ '.' :: (natToChars b ++ '.' :: (natToChars c ++ '.' :: natToChars d)) := by
    intro hmem
    simp only [List.mem_append, List.mem_cons] at hmem
    rcases hmem with hmem | hmem | hmem | hmem | hmem | hmem | hmem <;>
      first
      | exact colon_not_mem_natToChars _ hmem
      | exact absurd hmem (by decide)
  have hsplit : splitChar ':' (renderSockAddr ⟨a, b, c, d, p⟩)
      = [natToChars a ++ '.' :: (natToChars b ++ '.' :: (natToChars c ++ '.' :: natToChars d)),
         natToChars p] := by
    rw [hkey, splitChar_append hcolon, splitChar_not_mem (colon_not_mem_natToChars p)]
  have hdot : splitChar '.'
      (natToChars a ++ '.' :: (natToChars b ++ '.' :: (natToChars c ++ '.' :: natToChars d)))
      = [natToChars a, natToChars b, natToChars c, natToChars d] := by
    rw [splitChar_append (dot_not_mem_natToChars a), splitChar_append (dot_not_mem_natToChars b),
        splitChar_append (dot_not_mem_natToChars c),
        splitChar_not_mem (dot_not_mem_natToChars d)]
  have hipv4 : parseIpv4 (natToChars a
      ++ '.' :: (natToChars b ++ '.' :: (natToChars c ++ '.' :: natToChars d)))
      = some (a, b, c, d) := by
    simp [parseIpv4, hdot, parseOctet_natToChars ha, parseOctet_natToChars hb,
      parseOctet_natToChars hc, parseOctet_natToChars hd]
  simp [parseSockAddr, hsplit, hipv4, parsePort_natToChars hp]

theorem parse_wellformed_endpoint {key : List Nat} {sa : SockAddrV4}
    (hkey : ∀ x ∈ key, x < 256) (hlen : key.length = 32)
    (ha : sa.a ≤ 255) (hb : sa.b ≤ 255) (hc : sa.c ≤ 255) (hd : sa.d ≤ 255)
    (hp : sa.port ≤ 65535) :
    parse_independent_endpoint (hexEncode key ++ '@' :: renderSockAddr sa) = .ok (sa, key) := by
  have hsplit : splitChar '@' (hexEncode key ++ '@' :: renderSockAddr sa)
      = [hexEncode key, renderSockAddr sa] := by
    rw [splitChar_append (at_not_mem_hexEncode hkey),
        splitChar_not_mem (at_not_mem_renderSockAddr sa)]
  simp [parse_independent_endpoint, hsplit, hexDecode_hexEncode hkey, hlen,
    parseSockAddr_renderSockAddr ha hb hc hd hp]

/-- Claim C3: for every well-formed input `"<64-hex-char-key>@host:port"`,
`parse_independent_endpoint` returns exactly the 32 key bytes encoded by the
hex prefix together with the socket address encoded by the suffix; and on
malformed input — missing `@` separator, non-hex key, wrong-length key, or
unparsable host:port — it returns a format error instead of crashing (the
embedding is total, so every malformed case lands in an `Except.error`). -/
theorem C3_parse_independent_endpoint_correct :
    (∀ (key : List Nat) (sa : SockAddrV4),
      (∀ x ∈ key, x < 256) → key.length = 32 →
      sa.a ≤ 255 → sa.b ≤ 255 → sa.c ≤ 255 → sa.d ≤ 255 → sa.port ≤ 65535 →
      parse_independent_endpoint (hexEncode key ++ '@' :: renderSockAddr sa) = .ok (sa, key))
    ∧ (∀ s : List Char, '@' ∉ s → ∃ e, parse_independent_endpoint s = .error e)
    ∧ (∀ k rest : List Char, '@' ∉ k → hexDecode k = none →
        parse_independent_endpoint (k ++ '@' :: rest) = .error .pkNotHex)
    ∧ (∀ (k rest : List Char) (key : List Nat), '@' ∉ k → hexDecode k = some key →
        key.length ≠ 32 →
        parse_independent_endpoint (k ++ '@' :: rest) = .error .badPkLength)
    ∧ (∀ (k a : List Char) (key : List Nat), '@' ∉ k → '@' ∉ a →
        hexDecode k = some key → key.length = 32 → parseSockAddr a = none →
        parse_independent_endpoint (k ++ '@' :: a) = .error .badHostPort) := by
  refine ⟨?_, ?_, ?_, ?_, ?_⟩
  · intro key sa hkey hlen ha hb hc hd hp
    exact parse_wellformed_endpoint hkey hlen ha hb hc hd hp
  · intro s hs
    have hsplit : splitChar '@' s = [s] := splitChar_not_mem hs
    cases hdec : hexDecode s with
    | none => exact ⟨.pkNotHex, by simp [parse_independent_endpoint, hsplit, hdec]⟩
    | some decoded =>
      by_cases hlen : decoded.length = 32
      · exact ⟨.urlNotPkHost, by simp [parse_independent_endpoint, hsplit, hdec, hlen]⟩
      · exact ⟨.badPkLength, by simp [parse_independent_endpoint, hsplit, hdec, hlen]⟩
  · intro k rest hk hdec
    have hsplit : splitChar '@' (k ++ '@' :: rest) = k :: splitChar '@' rest :=
      splitChar_append hk
    simp [parse_independent_endpoint, hsplit, hdec]
  · intro k rest key hk hdec hlen
    have hsplit : splitChar '@' (k ++ '@' :: rest) = k :: splitChar '@' rest :=
      splitChar_append hk
    simp [parse_independent_endpoint, hsplit, hdec, hlen]
  · intro k a key hk ha hdec hlen hsa
    have hsplit : splitChar '@' (k ++ '@' :: a) = [k, a] := by
      rw [splitChar_append hk, splitChar_not_mem ha]
    simp [parse_independent_endpoint, hsplit, hdec, hlen, hsa]

/-- Witness for C3 at a concrete well-formed endpoint: the all-zero key and
the address 1.2.3.4:5. -/
theorem C3_witness :
    parse_independent_endpoint (hexEncode sampleKey ++ '@' :: renderSockAddr sampleAddr)
      = .ok (sampleAddr, sampleKey) :=
  C3_parse_independent_endpoint_correct.1 sampleKey sampleAddr (by decide) (by decide)
    (by decide) (by decide) (by decide) (by decide) (by decide)

/-- Claim C10: with two or more `@` separators, parsing behaves exactly as if
every segment after the second were absent — it succeeds whenever segment 0
decodes as a 32-byte hex key and segment 1 parses as a socket address, and the
extra separators are never themselves reported as an error. -/
theorem C10_extra_separators_ignored (k a t : List Char) (hk : '@' ∉ k) (ha : '@' ∉ a) :
    parse_independent_endpoint (k ++ '@' :: (a ++ '@' :: t))
      = parse_independent_endpoint (k ++ '@' :: a)
    ∧ (∀ (key : List Nat) (sa : SockAddrV4),
        hexDecode k = some key → key.length = 32 → parseSockAddr a = some sa →
        parse_independent_endpoint (k ++ '@' :: (a ++ '@' :: t)) = .ok (sa, key)) := by
  have h1 : splitChar '@' (k ++ '@' :: (a ++ '@' :: t)) = k :: a :: splitChar '@' t := by
    rw [splitChar_append hk, splitChar_append ha]
  have h2 : splitChar '@' (k ++ '@' :: a) = [k, a] := by
    rw [splitChar_append hk, splitChar_not_mem ha]
  constructor
  · simp [parse_independent_endpoint, h1, h2]
  · intro key sa hdec hlen hsa
    simp [parse_independent_endpoint, h1, hdec, hlen, hsa]

/-- Witness for C10 at a concrete input with a third `@`-segment. -/
theorem C10_witness :
    parse_independent_endpoint
        (hexEncode sampleKey ++ '@' :: (renderSockAddr sampleAddr ++ '@' :: ['x']))
      = .ok (sampleAddr, sampleKey) :=
  (C10_extra_separators_ignored (hexEncode sampleKey) (renderSockAddr sampleAddr) ['x']
      (by decide) (by decide)).2 sampleKey sampleAddr (by decide) (by decide) (by decide)

theorem foldl_e2eStep_eq_none :
    ∀ (bs : List BridgeDescriptor) (acc : Option (List Nat)),
      bs.foldl e2eStep acc = none
        ↔ acc = none ∧ ∀ b ∈ bs, b.protocol = obfsudp → decodeKeys b.sosistab_key = none := by
  intro bs
  induction bs with
  | nil => intro acc; simp
  | cons b rest ih =>
    intro acc
    rw [List.foldl_cons, ih]
    by_cases hp : b.protocol = obfsudp
    · cases hk : decodeKeys b.sosistab_key with
      | none =>
        simp only [e2eStep, hp, if_pos rfl, hk]
        constructor
        · rintro ⟨h1, h2⟩
          exact ⟨h1, by
            intro x hx hpx
            rcases List.mem_cons.mp hx with hx | hx
            · subst hx; exact hk
            · exact h2 x hx hpx⟩
        · rintro ⟨h1, h2⟩
          exact ⟨h1, fun x hx hpx => h2 x (List.mem_cons_of_mem b hx) hpx⟩
      | some val =>
        simp only [e2eStep, hp, if_pos rfl, hk]
        constructor
        · rintro ⟨h1, -⟩
          exact absurd h1 (by simp)
        · rintro ⟨-, h2⟩
          have := h2 b (List.mem_cons_self b rest) hp
          rw [this] at hk
          exact absurd hk (by simp)
    · simp only [e2eStep, hp, if_neg hp]
      constructor
      · rintro ⟨h1, h2⟩
        exact ⟨h1, by
          intro x hx hpx
          rcases List.mem_cons.mp hx with hx | hx
          · subst hx; exact absurd hpx hp
          · exact h2 x hx hpx⟩
      · rintro ⟨h1, h2⟩
        exact ⟨h1, fun x hx hpx => h2 x (List.mem_cons_of_mem b hx) hpx⟩

theorem deriveE2e_eq_none (bs : List BridgeDescriptor) :
    deriveE2e bs = none
      ↔ ∀ b ∈ bs, b.protocol = obfsudp → decodeKeys b.sosistab_key = none := by
  rw [deriveE2e, foldl_e2eStep_eq_none]
  simp

/-- Claim C6: a discovered-mode invocation whose fetched bridge list is empty
fails with the discovery error (`no sosistab2 routes`) before any session
exists: the trace carries the two discovery calls only — no session key is
generated and no multiplex is created. -/
theorem C6_empty_bridge_list_fails_early (exit : ExitDescriptor) (sessid : List Char) :
    getSessionDiscovered (.ok exit) (.ok []) sessid
      = ([.discoveryClosestExit, .discoveryBridgeList], .error .noRoutes)
    ∧ DEvent.keyGenerated ∉ (getSessionDiscovered (.ok exit) (.ok []) sessid).1
    ∧ DEvent.sessionCreated ∉ (getSessionDiscovered (.ok exit) (.ok []) sessid).1 := by
  have h : getSessionDiscovered (.ok exit) (.ok []) sessid
      = ([.discoveryClosestExit, .discoveryBridgeList], .error .noRoutes) := rfl
  refine ⟨h, ?_, ?_⟩ <;> rw [h] <;> decide

/-- Witness for C6 at a concrete exit. -/
theorem C6_witness :
    getSessionDiscovered (.ok ⟨['e']⟩) (.ok []) sampleSessid
      = ([.discoveryClosestExit, .discoveryBridgeList],
         .error DiscoveredError.noRoutes) :=
  (C6_empty_bridge_list_fails_early ⟨['e']⟩ sampleSessid).1

/-- Claim C7: with a non-empty bridge list, discovered-mode construction fails
with the key-derivation error if and only if no UDP-obfuscation bridge carries
a decodable (UDP key, end-to-end key) blob; with one key-less and one
key-bearing UDP bridge it succeeds, taking the end-to-end key from the
decodable one; and in the failure case no session is created. -/
theorem C7_key_derivation_iff (exit : ExitDescriptor) (sessid : List Char) :
    (∀ bridges : List BridgeDescriptor, bridges ≠ [] →
      ((getSessionDiscovered (.ok exit) (.ok bridges) sessid).2
          = .error .cannotDeduceMuxPublic
        ↔ ∀ b ∈ bridges, b.protocol = obfsudp → decodeKeys b.sosistab_key = none))
    ∧ (∀ (b1 b2 : BridgeDescriptor) (u m : List Nat),
        b1.protocol = obfsudp → decodeKeys b1.sosistab_key = none →
        b2.protocol = obfsudp → decodeKeys b2.sosistab_key = some (u, m) →
        (getSessionDiscovered (.ok exit) (.ok [b1, b2]) sessid).2
          = .ok { expectedPeerKey := some m, pipes := [], sessid := sessid })
    ∧ (∀ bridges : List BridgeDescriptor,
        (getSessionDiscovered (.ok exit) (.ok bridges) sessid).2
            = .error .cannotDeduceMuxPublic →
        DEvent.sessionCreated ∉ (getSessionDiscovered (.ok exit) (.ok bridges) sessid).1) := by
  refine ⟨?_, ?_, ?_⟩
  · intro bridges hne
    have hie : bridges.isEmpty = false := by
      cases bridges with
      | nil => exact absurd rfl hne
      | cons x xs => rfl
    cases hE : deriveE2e bridges with
    | none =>
      have hres : (getSessionDiscovered (.ok exit) (.ok bridges) sessid).2
          = .error .cannotDeduceMuxPublic := by
        simp [getSessionDiscovered, hie, hE]
      exact iff_of_true hres ((deriveE2e_eq_none bridges).mp hE)
    | some e2e =>
      have hres : (getSessionDiscovered (.ok exit) (.ok bridges) sessid).2
          = .ok { expectedPeerKey := some e2e, pipes := [], sessid := sessid } := by
        simp [getSessionDiscovered, hie, hE]
      refine iff_of_false (by simp [hres]) ?_
      intro hcond
      have := (deriveE2e_eq_none bridges).mpr hcond
      rw [this] at hE
      exact absurd hE (by simp)
  · intro b1 b2 u m hp1 hk1 hp2 hk2
    have hE : deriveE2e [b1, b2] = some m := by
      simp [deriveE2e, e2eStep, hp1, hk1, hp2, hk2]
    simp [getSessionDiscovered, hE]
  · intro bridges hres
    cases bridges with
    | nil => simp [getSessionDiscovered] at hres
    | cons x xs =>
      have hie : (x :: xs).isEmpty = false := rfl
      cases hE : deriveE2e (x :: xs) with
      | none =>
        have hev : (getSessionDiscovered (.ok exit) (.ok (x :: xs)) sessid).1
            = [.discoveryClosestExit, .discoveryBridgeList] := by
          simp [getSessionDiscovered, hie, hE]
        rw [hev]
        decide
      | some e2e =>
        have : (getSessionDiscovered (.ok exit) (.ok (x :: xs)) sessid).2
            = .ok { expectedPeerKey := some e2e, pipes := [], sessid := sessid } := by
          simp [getSessionDiscovered, hie, hE]
        rw [this] at hres
        exact absurd hres (by simp)

/-- Witness for C7 at a key-less and a key-bearing concrete UDP bridge. -/
theorem C7_witness :
    (getSessionDiscovered (.ok ⟨['e']⟩) (.ok [keylessBridge, keyedBridge]) sampleSessid).2
      = .ok { expectedPeerKey := some (List.replicate 32 7), pipes := [],
              sessid := sampleSessid } :=
  (C7_key_derivation_iff ⟨['e']⟩ sampleSessid).2.1 keylessBridge keyedBridge
    (List.replicate 32 7) (List.replicate 32 7) (by decide) (by decide) (by decide)
    (by decide)

/-- Claim C8: in discovered mode, filtering happens strictly before any I/O or
status notification — a bridge-required rejection of a direct descriptor and a
protocol-filter mismatch each fail with a skip error and an empty effect
trace; with a filter matching nothing every attempt is rejected effect-free,
while the session itself is still built (its construction does not wait on the
spawned attempts). -/
theorem C8_filtering_before_io :
    (∀ (params : BinderParams) (desc : BridgeDescriptor) (meta : List Char)
        (outcome : Option (Except Unit Pipe)),
      params.use_bridges = true → desc.is_direct = true →
      connect_once (some params) desc meta outcome = ([], .error .skippedDirect))
    ∧ (∀ (params : BinderParams) (f : String → Bool) (desc : BridgeDescriptor)
        (meta : List Char) (outcome : Option (Except Unit Pipe)),
      params.force_protocol = some (.matcher f) →
      ¬(params.use_bridges = true ∧ desc.is_direct = true) →
      f desc.protocol = false →
      connect_once (some params) desc meta outcome = ([], .error .skippedProtocol))
    ∧ (∀ (ub : Bool) (desc : BridgeDescriptor) (meta : List Char)
        (outcome : Option (Except Unit Pipe)),
      (connect_once (some ⟨ub, some (.matcher fun _ => false)⟩) desc meta outcome).1 = []
      ∧ ∃ e, (connect_once (some ⟨ub, some (.matcher fun _ => false)⟩) desc meta
          outcome).2 = .error e)
    ∧ (∀ (exit : ExitDescriptor) (bridges : List BridgeDescriptor) (sessid : List Char),
        bridges ≠ [] → deriveE2e bridges ≠ none →
        ∃ s, (getSessionDiscovered (.ok exit) (.ok bridges) sessid).2 = .ok s) := by
  refine ⟨?_, ?_, ?_, ?_⟩
  · intro params desc meta outcome hu hd
    simp [connect_once, hu, hd]
  · intro params f desc meta outcome hforce hnot hf
    have hand : (params.use_bridges && desc.is_direct) = false := by
      cases hub : params.use_bridges <;> cases hdir : desc.is_direct <;> simp_all
    simp [connect_once, hand, hforce, hf]
  · intro ub desc meta outcome
    by_cases h : ub = true ∧ desc.is_direct = true
    · constructor
      · simp [connect_once, h.1, h.2]
      · exact ⟨.skippedDirect, by simp [connect_once, h.1, h.2]⟩
    · have hand : (ub && desc.is_direct) = false := by
        cases hub : ub <;> cases hdir : desc.is_direct <;> simp_all
      constructor
      · simp [connect_once, hand]
      · exact ⟨.skippedProtocol, by simp [connect_once, hand]⟩
  · intro exit bridges sessid hne hE
    have hie : bridges.isEmpty = false := by
      cases bridges with
      | nil => exact absurd rfl hne
      | cons x xs => rfl
    cases hEs : deriveE2e bridges with
    | none => exact absurd hEs hE
    | some e2e =>
      exact ⟨{ expectedPeerKey := some e2e, pipes := [], sessid := sessid },
        by simp [getSessionDiscovered, hie, hEs]⟩

/-- Witness for C8: a direct descriptor under bridge-required policy is
rejected with no effects. -/
theorem C8_witness :
    connect_once (some ⟨true, none⟩) ⟨sampleAddr, obfsudp, [], true⟩ sampleSessid none
      = ([], .error .skippedDirect) :=
  C8_filtering_before_io.1 ⟨true, none⟩ ⟨sampleAddr, obfsudp, [], true⟩ sampleSessid none
    rfl rfl

theorem independentLoop_all_ok :
    ∀ (k i : Nat) (addr : SockAddrV4) (key : List Nat) (sessid : List Char)
      (outcomes : Nat → Except Unit Pipe),
      (∀ j, j < k → ∃ p, outcomes (i + j) = .ok p) →
      ∃ evs ps, independentLoop addr key sessid outcomes i k = (evs, .ok ps)
        ∧ ps.length = k ∧ evs.countP isAttemptEvent = k := by
  intro k
  induction k with
  | zero =>
    intro i addr key sessid outcomes h
    exact ⟨[], [], rfl, rfl, rfl⟩
  | succ k ih =>
    intro i addr key sessid outcomes h
    obtain ⟨p, hp⟩ := h 0 (by omega)
    rw [Nat.add_zero] at hp
    obtain ⟨evs, ps, hrec, hlen, hcount⟩ :=
      ih (i + 1) addr key sessid outcomes (fun j hj => by
        have hh := h (j + 1) (by omega)
        rwa [show i + (j + 1) = i + 1 + j by omega] at hh)
    refine ⟨.connectAttempt addr key sessid none .awaitedInline :: .addPipe p :: evs,
      p :: ps, ?_, by simp [hlen], ?_⟩
    · simp only [independentLoop, hp, hrec]
    · simp [List.countP_cons, isAttemptEvent, hcount]

theorem independentLoop_first_err :
    ∀ (j k i : Nat) (addr : SockAddrV4) (key : List Nat) (sessid : List Char)
      (outcomes : Nat → Except Unit Pipe),
      j < k →
      (∀ t, t < j → ∃ p, outcomes (i + t) = .ok p) →
      outcomes (i + j) = .error () →
      ∃ evs, independentLoop addr key sessid outcomes i k = (evs, .error ())
        ∧ evs.countP isAttemptEvent = j + 1 := by
  intro j
  induction j with
  | zero =>
    intro k i addr key sessid outcomes hjk hok herr
    match k, hjk with
    | k + 1, _ =>
      rw [Nat.add_zero] at herr
      refine ⟨[.connectAttempt addr key sessid none .awaitedInline], ?_, ?_⟩
      · simp only [independentLoop, herr]
      · simp [isAttemptEvent]
  | succ j ih =>
    intro k i addr key sessid outcomes hjk hok herr
    match k, hjk with
    | k + 1, _ =>
      obtain ⟨p, hp⟩ := hok 0 (by omega)
      rw [Nat.add_zero] at hp
      obtain ⟨evs, hrec, hcount⟩ := ih k (i + 1) addr key sessid outcomes (by omega)
        (fun t ht => by
          have hh := hok (t + 1) (by omega)
          rwa [show i + (t + 1) = i + 1 + t by omega] at hh)
        (by rwa [show i + (j + 1) = i + 1 + j by omega] at herr)
      refine ⟨.connectAttempt addr key sessid none .awaitedInline :: .addPipe p :: evs,
        ?_, ?_⟩
      · simp only [independentLoop, hp, hrec]
      · simp [List.countP_cons, isAttemptEvent, hcount]

theorem independentLoop_fields :
    ∀ (k i : Nat) (addr : SockAddrV4) (key : List Nat) (sessid : List Char)
      (outcomes : Nat → Except Unit Pipe) (ev : IEvent),
      ev ∈ (independentLoop addr key sessid outcomes i k).1 →
      ∀ (a2 : SockAddrV4) (k2 : List Nat) (sid : List Char) (dl : Option Nat)
        (sch : Scheduling),
        ev = .connectAttempt a2 k2 sid dl sch →
        a2 = addr ∧ k2 = key ∧ sid = sessid ∧ dl = none ∧ sch = .awaitedInline := by
  intro k
  induction k with
  | zero =>
    intro i addr key sessid outcomes ev hev
    simp [independentLoop] at hev
  | succ k ih =>
    intro i addr key sessid outcomes ev hev a2 k2 sid dl sch heq
    cases ho : outcomes i with
    | error e =>
      simp only [independentLoop, ho] at hev
      rw [List.mem_singleton] at hev
      rw [hev] at heq
      injection heq with h1 h2 h3 h4 h5
      exact ⟨h1.symm, h2.symm, h3.symm, h4.symm, h5.symm⟩
    | ok p =>
      rcases hrec : independentLoop addr key sessid outcomes (i + 1) k with ⟨evs, res⟩
      cases res with
      | error e =>
        simp only [independentLoop, ho, hrec] at hev
        rcases List.mem_cons.mp hev with hev | hev
        · rw [hev] at heq
          injection heq with h1 h2 h3 h4 h5
          exact ⟨h1.symm, h2.symm, h3.symm, h4.symm, h5.symm⟩
        rcases List.mem_cons.mp hev with hev | hev
        · rw [hev] at heq
          simp at heq
        · exact ih (i + 1) addr key sessid outcomes ev (by rw [hrec]; exact hev)
            a2 k2 sid dl sch heq
      | ok ps =>
        simp only [independentLoop, ho, hrec] at hev
        rcases List.mem_cons.mp hev with hev | hev
        · rw [hev] at heq
          injection heq with h1 h2 h3 h4 h5
          exact ⟨h1.symm, h2.symm, h3.symm, h4.symm, h5.symm⟩
        rcases List.mem_cons.mp hev with hev | hev
        · rw [hev] at heq
          simp at heq
        · exact ih (i + 1) addr key sessid outcomes ev (by rw [hrec]; exact hev)
            a2 k2 sid dl sch heq

/-- Counterexample to claim C4 as stated: in a concrete independent-mode
bootstrap every connect attempt is awaited with no deadline at all (the
`deadlineSecs` field of every attempt event is `none`, never `some 10`), so
the 10-second bound does not cover bootstrap pipes in independent mode. -/
theorem C4_counterexample :
    (getSessionIndependent sampleEndpoint sampleSessid (fun _ => .ok samplePipe)).1
      = [.connectAttempt sampleAddr sampleKey sampleSessid none .awaitedInline,
         .addPipe samplePipe,
         .connectAttempt sampleAddr sampleKey sampleSessid none .awaitedInline,
         .addPipe samplePipe,
         .connectAttempt sampleAddr sampleKey sampleSessid none .awaitedInline,
         .addPipe samplePipe,
         .connectAttempt sampleAddr sampleKey sampleSessid none .awaitedInline,
         .addPipe samplePipe]
    ∧ ∀ (dl : Option Nat) (sch : Scheduling),
        IEvent.connectAttempt sampleAddr sampleKey sampleSessid dl sch
            ∈ (getSessionIndependent sampleEndpoint sampleSessid (fun _ => .ok samplePipe)).1 →
        dl = none := by
  have htr : (getSessionIndependent sampleEndpoint sampleSessid (fun _ => .ok samplePipe)).1
      = [.connectAttempt sampleAddr sampleKey sampleSessid none .awaitedInline,
         .addPipe samplePipe,
         .connectAttempt sampleAddr sampleKey sampleSessid none .awaitedInline,
         .addPipe samplePipe,
         .connectAttempt sampleAddr sampleKey sampleSessid none .awaitedInline,
         .addPipe samplePipe,
         .connectAttempt sampleAddr sampleKey sampleSessid none .awaitedInline,
         .addPipe samplePipe] := by decide
  refine ⟨htr, ?_⟩
  intro dl sch hmem
  rw [htr] at hmem
  simp at hmem
  exact hmem.1

/-- Claim C4 (amended): every `connect_once` attempt — used by discovered-mode
bootstrap fan-out and by every refresh attempt — wraps its network connect in
a fixed 10-second deadline and fails with the timeout error when that deadline
expires, for both transports; independent-mode bootstrap connects, which
bypass `connect_once`, are awaited with no deadline. -/
theorem C4_amended_ten_second_deadline :
    (∀ (desc : BridgeDescriptor) (meta : List Char) (keys : List Nat × List Nat),
      desc.protocol = obfsudp → decodeKeys desc.sosistab_key = some keys →
      connect_once none desc meta none
        = ([.statusPreConnect desc.endpoint obfsudp,
            .ioConnectUdp desc.endpoint keys.1 meta (some 10)], .error .pipeTimeout))
    ∧ (∀ (desc : BridgeDescriptor) (meta : List Char),
      desc.protocol = obfstls →
      connect_once none desc meta none
        = ([.ioConnectTls desc.endpoint desc.sosistab_key meta (some 10)],
           .error .pipeTimeout))
    ∧ (∀ (endpoint sessid : List Char) (outcomes : Nat → Except Unit Pipe) (ev : IEvent),
        ev ∈ (getSessionIndependent endpoint sessid outcomes).1 →
        ∀ (a2 : SockAddrV4) (k2 : List Nat) (sid : List Char) (dl : Option Nat)
          (sch : Scheduling),
          ev = .connectAttempt a2 k2 sid dl sch → dl = none) := by
  refine ⟨?_, ?_, ?_⟩
  · intro desc meta keys hp hk
    simp [connect_once, connectDispatch, hp, hk]
  · intro desc meta hp
    have hne : obfstls ≠ obfsudp := by decide
    simp [connect_once, connectDispatch, hp, hne]
  · intro endpoint sessid outcomes ev hev a2 k2 sid dl sch heq
    cases hp : parse_independent_endpoint endpoint with
    | error e =>
      simp only [getSessionIndependent, hp] at hev
      simp at hev
    | ok pr =>
      obtain ⟨addr, rawKey⟩ := pr
      rcases hl : independentLoop addr rawKey sessid outcomes 0 4 with ⟨evs, res⟩
      have hev2 : ev ∈ evs := by
        cases res with
        | error e2 => simpa only [getSessionIndependent, hp, hl] using hev
        | ok ps => simpa only [getSessionIndependent, hp, hl] using hev
      exact (independentLoop_fields 4 0 addr rawKey sessid outcomes ev
        (by rw [hl]; exact hev2) a2 k2 sid dl sch heq).2.2.2.1

/-- Witness for the amended C4: a concrete discovered-mode UDP attempt whose
deadline expires fails with the timeout error, after a 10-second-bounded
connect. -/
theorem C4_witness :
    connect_once none ⟨sampleAddr, obfsudp, List.replicate 64 7, false⟩ sampleSessid none
      = ([.statusPreConnect sampleAddr obfsudp,
          .ioConnectUdp sampleAddr (List.replicate 32 7) sampleSessid (some 10)],
         .error .pipeTimeout) :=
  C4_amended_ten_second_deadline.1 ⟨sampleAddr, obfsudp, List.replicate 64 7, false⟩
    sampleSessid (List.replicate 32 7, List.replicate 32 7) rfl (by decide)

/-- Counterexample to claim C5 as stated: with the second of four outcomes
failing, the concrete independent-mode bootstrap opens only two connect
attempts — the four connects are not opened concurrently; each is awaited (and
its pipe attached) before the next starts, and the attempts after the failure
never start. -/
theorem C5_counterexample :
    (getSessionIndependent sampleEndpoint sampleSessid
        (fun i => if i = 0 then .ok samplePipe else .error ())).1
      = [.connectAttempt sampleAddr sampleKey sampleSessid none .awaitedInline,
         .addPipe samplePipe,
         .connectAttempt sampleAddr sampleKey sampleSessid none .awaitedInline]
    ∧ (getSessionIndependent sampleEndpoint sampleSessid
        (fun i => if i = 0 then .ok samplePipe else .error ())).2 = .error .connectFailed
    ∧ (getSessionIndependent sampleEndpoint sampleSessid
        (fun i => if i = 0 then .ok samplePipe else .error ())).1.countP isAttemptEvent
        = 2 := by
  refine ⟨by decide, by decide, by decide⟩

/-- Claim C5 (amended): independent-mode construction with four successful
outcomes returns a session with exactly four pipes, no expected peer key, and
the given session identifier, the four connects being opened sequentially —
each awaited inline before the next starts; the first failure aborts
construction with a connect error, the attempts after it never start (exactly
j+1 attempts are opened when attempt j fails), and there are no retries. -/
theorem C5_amended_sequential_four_pipes (endpoint sessid : List Char)
    (outcomes : Nat → Except Unit Pipe) (addr : SockAddrV4) (key : List Nat)
    (hparse : parse_independent_endpoint endpoint = .ok (addr, key)) :
    ((∀ j, j < 4 → ∃ p, outcomes j = .ok p) →
      ∃ s, (getSessionIndependent endpoint sessid outcomes).2 = .ok s
        ∧ s.pipes.length = 4 ∧ s.expectedPeerKey = none ∧ s.sessid = sessid)
    ∧ (∀ j, j < 4 → (∀ t, t < j → ∃ p, outcomes t = .ok p) → outcomes j = .error () →
        (getSessionIndependent endpoint sessid outcomes).2 = .error .connectFailed
        ∧ (getSessionIndependent endpoint sessid outcomes).1.countP isAttemptEvent
            = j + 1)
    ∧ (∀ ev ∈ (getSessionIndependent endpoint sessid outcomes).1,
        ∀ (a2 : SockAddrV4) (k2 : List Nat) (sid : List Char) (dl : Option Nat)
          (sch : Scheduling),
          ev = IEvent.connectAttempt a2 k2 sid dl sch →
          sid = sessid ∧ sch = .awaitedInline) := by
  refine ⟨?_, ?_, ?_⟩
  · intro hall
    obtain ⟨evs, ps, hl, hlen, -⟩ := independentLoop_all_ok 4 0 addr key sessid outcomes
      (fun j hj => by simpa using hall j hj)
    refine ⟨{ expectedPeerKey := none, pipes := ps, sessid := sessid }, ?_, hlen, rfl, rfl⟩
    simp [getSessionIndependent, hparse, hl]
  · intro j hj hok herr
    obtain ⟨evs, hl, hcount⟩ := independentLoop_first_err j 4 0 addr key sessid outcomes hj
      (fun t ht => by simpa using hok t ht) (by simpa using herr)
    constructor
    · simp [getSessionIndependent, hparse, hl]
    · have hev : (getSessionIndependent endpoint sessid outcomes).1 = evs := by
        simp [getSessionIndependent, hparse, hl]
      rw [hev]
      exact hcount
  · intro ev hev a2 k2 sid dl sch heq
    rcases hl : independentLoop addr key sessid outcomes 0 4 with ⟨evs, res⟩
    have hev2 : ev ∈ evs := by
      cases res with
      | error e2 => simpa only [getSessionIndependent, hparse, hl] using hev
      | ok ps => simpa only [getSessionIndependent, hparse, hl] using hev
    have hfields := independentLoop_fields 4 0 addr key sessid outcomes ev
      (by rw [hl]; exact hev2) a2 k2 sid dl sch heq
    exact ⟨hfields.2.2.1, hfields.2.2.2.2⟩

/-- Witness for the amended C5: four successful outcomes at a concrete
endpoint yield a four-pipe session with no expected peer key. -/
theorem C5_witness :
    ∃ s, (getSessionIndependent sampleEndpoint sampleSessid (fun _ => .ok samplePipe)).2
        = .ok s
      ∧ s.pipes.length = 4 ∧ s.expectedPeerKey = none ∧ s.sessid = sampleSessid :=
  (C5_amended_sequential_four_pipes sampleEndpoint sampleSessid (fun _ => .ok samplePipe)
    sampleAddr sampleKey (by decide)).1 (fun j hj => ⟨samplePipe, rfl⟩)

/-- Counterexample to claim C1 as stated: with the weak-reference upgrade
failing in the first cycle (events 2-3: discovery call, then the logged
`multiplex is dead` error), the refresher does not transition to any stopped
state — the very next cycle performs another discovery call, so discovery
calls continue beyond the in-flight cycle. -/
theorem C1_counterexample :
    replace_dead_run .outerTop [orphanCycle, orphanCycle]
      = [.awaitTimer, .discoveryCall, .logRefreshError, .discoveryCall, .logRefreshError]
    ∧ (replace_dead_run .outerTop [orphanCycle, orphanCycle]).countP
        (fun e => decide (e = REvent.discoveryCall)) = 2 := by
  have h : replace_dead_run .outerTop [orphanCycle, orphanCycle]
      = [.awaitTimer, .discoveryCall, .logRefreshError, .discoveryCall,
         .logRefreshError] := by
    simp [replace_dead_run, cycleEvents, orphanCycle]
  refine ⟨h, ?_⟩
  rw [h]
  decide

/-- Claim C1 (amended): when resolving the weak session reference fails, the
refresher merely logs the error and continues its inner loop unchanged — every
subsequent cycle still runs, and every cycle begins with a discovery call.
The loop has no terminal state of its own; it stops only when externally
cancelled (the session's drop releases the task handle registered with
`add_drop_friend`). -/
theorem C1_amended_failed_upgrade_continues (inp : CycleInput) (env : List CycleInput)
    (bs : List BridgeDescriptor) (hb : inp.bridgesRes = .ok bs)
    (hu : inp.upgraded = none) :
    replace_dead_run .innerTop (inp :: env)
      = .discoveryCall :: .logRefreshError :: replace_dead_run .innerTop env
    ∧ ∀ inp2 : CycleInput, (cycleEvents inp2).head? = some .discoveryCall := by
  constructor
  · have hc : cycleEvents inp = [.discoveryCall, .logRefreshError] := by
      simp [cycleEvents, hb, hu]
    simp [replace_dead_run, hc]
  · intro inp2
    rcases inp2 with ⟨br, up⟩
    cases br with
    | error e => rfl
    | ok bs2 =>
      cases up with
      | none => rfl
      | some pipes => rfl

/-- Witness for the amended C1 at the concrete orphaned cycle. -/
theorem C1_witness :
    replace_dead_run .innerTop [orphanCycle]
      = .discoveryCall :: .logRefreshError :: replace_dead_run .innerTop [] :=
  (C1_amended_failed_upgrade_continues orphanCycle [] [] rfl rfl).1

/-- Claim C2 evaluation: across two refresh cycles the 5-minute timer is
awaited exactly once — after the first interval the inner loop repeats
refresh cycles (here two failing fetches, each logged) without ever returning
to the timer, so the second cycle is not preceded by the interval. -/
theorem C2_single_timer_across_cycles :
    replace_dead_run .outerTop [failedFetchCycle, failedFetchCycle]
      = [.awaitTimer, .discoveryCall, .logRefreshError, .discoveryCall, .logRefreshError]
    ∧ (replace_dead_run .outerTop [failedFetchCycle, failedFetchCycle]).countP
        (fun e => decide (e = REvent.awaitTimer)) = 1
    ∧ (replace_dead_run .outerTop [failedFetchCycle, failedFetchCycle]).countP
        (fun e => decide (e = REvent.discoveryCall)) = 2 := by
  have h : replace_dead_run .outerTop [failedFetchCycle, failedFetchCycle]
      = [.awaitTimer, .discoveryCall, .logRefreshError, .discoveryCall,
         .logRefreshError] := by
    simp [replace_dead_run, cycleEvents, failedFetchCycle]
  refine ⟨h, ?_, ?_⟩ <;> rw [h] <;> decide

/-- Claim C9: a refresh cycle schedules one attempt exactly for each fetched
bridge whose rendered endpoint differs from every attached pipe's peer
address; if every fetched bridge is already attached, a two-cycle run with the
same input schedules nothing at all. -/
theorem C9_refresh_schedules_exactly_new (bs : List BridgeDescriptor)
    (pipes : List Pipe) :
    (∀ b : BridgeDescriptor,
      REvent.scheduleAttempt b ∈ cycleEvents ⟨.ok bs, some pipes⟩
        ↔ b ∈ bs ∧ ∀ p ∈ pipes, p.peerAddr ≠ renderSockAddr b.endpoint)
    ∧ ((∀ b ∈ bs, ∃ p ∈ pipes, p.peerAddr = renderSockAddr b.endpoint) →
        replace_dead_run .outerTop [⟨.ok bs, some pipes⟩, ⟨.ok bs, some pipes⟩]
          = [.awaitTimer, .discoveryCall, .discoveryCall]) := by
  constructor
  · intro b
    simp [cycleEvents, newBridges, List.mem_filter, List.any_eq_true]
  · intro hcov
    have hnil : newBridges bs pipes = [] := by
      rw [newBridges, List.filter_eq_nil_iff]
      intro b hb
      obtain ⟨p, hp, hpe⟩ := hcov b hb
      have hany : (pipes.any fun pipe => pipe.peerAddr == renderSockAddr b.endpoint)
          = true := by
        rw [List.any_eq_true]
        exact ⟨p, hp, by rw [hpe]; exact beq_self_eq_true _⟩
      simp [hany]
    have hc : cycleEvents ⟨.ok bs, some pipes⟩ = [.discoveryCall] := by
      simp [cycleEvents, hnil]
    simp [replace_dead_run, hc]

/-- Witness for C9: one bridge already attached through one pipe yields a
two-cycle run with no scheduled attempts. -/
theorem C9_witness :
    replace_dead_run .outerTop
        [⟨.ok [sampleBridge], some [attachedPipe]⟩,
         ⟨.ok [sampleBridge], some [attachedPipe]⟩]
      = [.awaitTimer, .discoveryCall, .discoveryCall] :=
  (C9_refresh_schedules_exactly_new [sampleBridge] [attachedPipe]).2
    (fun b hb => ⟨attachedPipe, List.mem_singleton.mpr rfl, by
      rw [List.mem_singleton] at hb
      rw [hb]
      rfl⟩)
